import Mathlib

set_option linter.unusedVariables false

/-!
Verification of the open-cli Tool Execution & Security Validation pipeline.

The embedding below translates the pipeline's TypeScript sources into
executable Lean definitions:
* `SafetyManager` — the legacy safety manager wired into `CoreManager`;
* `SecureSafetyManager` — the canonicalizing security manager;
* `RateLimiter` — the three rate-limiting algorithms;
* `CoreManager.executeWriteToolCall` — the tool-call loop body instantiated
  at the `write_file` tool;
* `ErrorUtils.retry` — the bounded exponential-backoff retry executor;
* `ToolRegistry` — tool registration and invocation lookup.

Strings are modelled as character sequences (`List Char`), so the JavaScript
string operations the security checks are built from (`startsWith`,
`endsWith`, slicing) are ordinary list operations.  Paths range over the
absolute, `.`/`..`-free, symlink-free domain on which Node's `path.resolve`,
`path.normalize` and `fs.realpath` act as the identity.
-/

namespace OpenCLI

/-- Text (JavaScript strings) as character sequences. -/
abbrev Str := List Char

/-- A filesystem path, as its character sequence. -/
abbrev Path := Str

/-- The POSIX path separator used throughout the sources. -/
def sepChar : Char := '/'

/-- The two-character segment `..`. -/
def dotdot : Str := ['.', '.']

/-- JavaScript `s.startsWith(pre)`. -/
def strStarts : Str → Str → Bool
  | _, [] => true
  | [], _ :: _ => false
  | a :: as, b :: bs => decide (a = b) && strStarts as bs

/-- JavaScript `s.endsWith(suf)`. -/
def strEnds (s suf : Str) : Bool := strStarts s.reverse suf.reverse

/-- Substring containment, the effect of the source's regex tests for fixed
character patterns. -/
def strContainsSub : Str → Str → Bool
  | [], pat => pat.isEmpty
  | c :: rest, pat => strStarts (c :: rest) pat || strContainsSub rest pat

/-- JavaScript `s.toLowerCase()` on the identifier-like strings in play. -/
def strLower (s : Str) : Str := s.map Char.toLower

/-- Segments of an absolute normalized path (empty segments from leading,
trailing or doubled separators are discarded, as Node does). -/
def pathSegments (p : Path) : List Str := (p.splitOn sepChar).filter (fun s => !s.isEmpty)

/-- Strip the common leading segments of two segment lists. -/
def dropCommonSegs : List Str → List Str → List Str × List Str
  | a :: as, b :: bs => if a = b then dropCommonSegs as bs else (a :: as, b :: bs)
  | as, bs => (as, bs)

/-- Node `path.relative` for absolute normalized POSIX paths: strip the common
segment run, climb out of the remaining `from` segments with `..`, then
descend into the remaining `to` segments. -/
def pathRelative (fromP toP : Path) : Path :=
  let rest := dropCommonSegs (pathSegments fromP) (pathSegments toP)
  List.intercalate [sepChar] (rest.1.map (fun _ => dotdot) ++ rest.2)

/-- Node `path.resolve` and `fs.realpath`: on the absolute, already-normalized,
symlink-free paths this embedding ranges over, both are the identity (the
missing-file fallback of the secure manager, which canonicalizes the parent
directory and reattaches the basename, is also the identity there). -/
def pathResolve (p : Path) : Path := p

/-- Node `path.normalize` on the already-normalized domain (see `pathResolve`). -/
def pathNormalize (p : Path) : Path := p

/-- Node `path.basename` for the restricted domain. -/
def pathBasename (p : Path) : Str := ((pathSegments p).getLast?).getD []

/-- Node `path.extname`: the final dot-led run of the basename; empty for
dotfiles and extensionless names. -/
def pathExtname (p : Path) : Str :=
  let base := pathBasename p
  match (base.enum.filter (fun x => decide (x.2 = '.'))).getLast? with
  | some (i, _) => if i = 0 then [] else base.drop i
  | none => []

/-- Specification predicate (§8 *Containment*): the canonical path equals the
canonical root or lies strictly below it, i.e. `canonicalRoot + separator` is
a textual prefix of it. -/
def descendantOrEqual (canonicalRoot canonicalPath : Path) : Bool :=
  decide (canonicalPath = canonicalRoot) || strStarts canonicalPath (canonicalRoot ++ [sepChar])

/-- The filesystem model: a finite map from absolute paths to file contents.
`fs.promises.access` succeeds exactly on stored files, and `stat().size` is
the content length (one byte per character, as for ASCII content). -/
structure FS where
  files : List (Path × Str)
  deriving DecidableEq, Repr

/-- Content of the file at `p`, if present. -/
def FS.lookup (fs : FS) (p : Path) : Option Str :=
  (fs.files.find? (fun e => decide (e.1 = p))).map (fun e => e.2)

/-- Whether a file exists at `p`. -/
def FS.fileExists (fs : FS) (p : Path) : Bool := (fs.lookup p).isSome

/-- `fs.promises.writeFile`: replace or create the file at `p`. -/
def FS.writeFile (fs : FS) (p : Path) (c : Str) : FS :=
  { files := fs.files.filter (fun e => !decide (e.1 = p)) ++ [(p, c)] }

/-- File operation kinds (`FileOperation` of the secure manager; the legacy
manager uses only `read` and `write`). -/
inductive FileOperation
  | read | write | delete | stat | access | list
  deriving DecidableEq, Repr

namespace SafetyManager

/-- `SafetyConfig` of the legacy safety manager. -/
structure SafetyConfig where
  rootDirectory : Path
  allowedExtensions : Option (List Str) := none
  blockedPaths : Option (List Path) := none
  maxFileSize : Option Nat := none
  deriving DecidableEq, Repr

/-- Result shape `{valid, reason?, safePath?}` of the legacy validators. -/
structure Validation where
  valid : Bool
  reason : Option Str := none
  safePath : Option Path := none
  deriving DecidableEq, Repr

/-- `SafetyManager.validateFilePath`: resolve, then a bare `startsWith` test
against the resolved root, then the blocked-path scan. -/
def validateFilePath (config : SafetyConfig) (filePath : Path) : Validation :=
  let absolutePath := pathResolve filePath
  let rootPath := pathResolve config.rootDirectory
  if !(strStarts absolutePath rootPath) then
    { valid := false, reason := some (("Path must be within root directory: ").data ++ rootPath) }
  else
    let relativePath := pathRelative rootPath absolutePath
    match (config.blockedPaths.getD []).find? (fun b => strStarts relativePath b) with
    | some b => { valid := false, reason := some (("Path is blocked: ").data ++ b) }
    | none => { valid := true, safePath := some absolutePath }

/-- `SafetyManager.validateFileExtension`: an allowlist entry matches either
the dotted extension or the extension with its dot stripped. -/
def validateFileExtension (config : SafetyConfig) (filePath : Path) : Validation :=
  match config.allowedExtensions with
  | none => { valid := true }
  | some exts =>
    if exts.isEmpty then { valid := true }
    else
      let extension := strLower (pathExtname filePath)
      let allowed := exts.any (fun e =>
        decide (strLower e = extension) || decide (strLower e = extension.drop 1))
      if !allowed then
        { valid := false,
          reason := some (("File extension '").data ++ extension
            ++ ("' not allowed. Allowed: ").data ++ List.intercalate ((", ").data) exts) }
      else { valid := true }

/-- `SafetyManager.validateFileSize`: missing files pass (write case). -/
def validateFileSize (config : SafetyConfig) (fs : FS) (filePath : Path) : Validation :=
  match config.maxFileSize with
  | none => { valid := true }
  | some maxSize =>
    match fs.lookup filePath with
    | some content =>
      if maxSize < content.length then
        { valid := false,
          reason := some (("File size (").data ++ (Nat.repr content.length).data
            ++ (" bytes) exceeds maximum (").data ++ (Nat.repr maxSize).data ++ (" bytes)").data) }
      else { valid := true }
    | none => { valid := true }

/-- `SafetyManager.validateFile`: path, then extension, then (for reads only)
size. -/
def validateFile (config : SafetyConfig) (fs : FS) (filePath : Path)
    (operation : FileOperation) : Validation :=
  let pathResult := validateFilePath config filePath
  if !pathResult.valid then pathResult
  else
    let sp := pathResult.safePath.getD []
    let extensionResult := validateFileExtension config sp
    if !extensionResult.valid then extensionResult
    else
      if operation = FileOperation.read then
        let sizeResult := validateFileSize config fs sp
        if !sizeResult.valid then sizeResult
        else { valid := true, safePath := pathResult.safePath }
      else { valid := true, safePath := pathResult.safePath }

end SafetyManager

namespace SecureSafetyManager

/-- `SecurityConfig` with the schema defaults of `ConfigSchema.ts`. -/
structure SecurityConfig where
  maxFileSize : Option Nat := some (10 * 1024 * 1024)
  allowedExtensions : Option (List Str) := none
  blockedPaths : List Path := []
  enablePathTraversalProtection : Bool := true
  maxRequestSize : Option Nat := some (1024 * 1024)
  deriving DecidableEq, Repr

/-- Result shape `{allowed, reason?, canonicalPath?}`; the source's `metadata`
field carries only logging payloads and is elided. -/
structure SecurityValidationResult where
  allowed : Bool
  reason : Option Str := none
  canonicalPath : Option Path := none
  deriving DecidableEq, Repr

/-- `SecureSafetyManager.isWithinRoot`: separator-terminated prefix test, or
exact equality with the root. -/
def isWithinRoot (canonicalPath canonicalRoot : Path) : Bool :=
  let normalizedRoot :=
    if strEnds canonicalRoot [sepChar] then canonicalRoot else canonicalRoot ++ [sepChar]
  let normalizedPath :=
    if strEnds canonicalPath [sepChar] then canonicalPath else canonicalPath ++ [sepChar]
  strStarts normalizedPath normalizedRoot || decide (canonicalPath = canonicalRoot)

/-- JavaScript regex `\s` class members that can appear in paths here. -/
def jsWhitespace (c : Char) : Bool :=
  decide (c = ' ') || decide (c = '\t') || decide (c = '\n') || decide (c = '\r')
    || decide (c = '\x0b') || decide (c = '\x0c')

/-- `SecureSafetyManager.containsMaliciousPatterns`: directory-traversal
digrams around a separator, null bytes, Windows-invalid characters, or an
empty/whitespace-only path. -/
def containsMaliciousPatterns (filePath : Path) : Bool :=
  strContainsSub filePath (['.', '.', '/']) || strContainsSub filePath (['.', '.', '\\'])
    || strContainsSub filePath (['/', '.', '.']) || strContainsSub filePath (['\\', '.', '.'])
    || filePath.any (fun c => decide (c = '\x00'))
    || filePath.any (fun c => (['<', '>', ':', '"', '|', '?', '*']).any (fun d => decide (c = d)))
    || filePath.all jsWhitespace

/-- `SecureSafetyManager.isPathBlocked`: backslash-normalized prefix match
against each configured blocked path. -/
def isPathBlocked (config : SecurityConfig) (relativePath : Path) : Bool :=
  let normalizedPath := (pathNormalize relativePath).map (fun c => if decide (c = '\\') then '/' else c)
  config.blockedPaths.any (fun blockedPath =>
    let normalizedBlocked := (pathNormalize blockedPath).map (fun c => if decide (c = '\\') then '/' else c)
    strStarts normalizedPath normalizedBlocked)

/-- `SecureSafetyManager.validateFileExtension` (dot-normalizing variant). -/
def validateFileExtension (config : SecurityConfig) (filePath : Path) : SecurityValidationResult :=
  match config.allowedExtensions with
  | none => { allowed := true }
  | some exts =>
    if exts.isEmpty then { allowed := true }
    else
      let extension := strLower (pathExtname filePath)
      let ok := exts.any (fun e =>
        let le := strLower e
        let normalizedExt := if strStarts le ['.'] then le else '.' :: le
        decide (normalizedExt = extension))
      if !ok then
        { allowed := false,
          reason := some (("File extension '").data ++ extension
            ++ ("' not allowed. Allowed: ").data ++ List.intercalate ((", ").data) exts) }
      else { allowed := true }

/-- `SecureSafetyManager.validateFileSize`: missing files pass; no other stat
failure arises in the filesystem model. -/
def validateFileSize (config : SecurityConfig) (fs : FS) (filePath : Path) : SecurityValidationResult :=
  match config.maxFileSize with
  | none => { allowed := true }
  | some maxSize =>
    match fs.lookup filePath with
    | some content =>
      if maxSize < content.length then
        { allowed := false,
          reason := some (("File size (").data ++ (Nat.repr content.length).data
            ++ (" bytes) exceeds maximum (").data ++ (Nat.repr maxSize).data ++ (" bytes)").data) }
      else { allowed := true }
    | none => { allowed := true }

/-- `SecureSafetyManager.validateContentSize`: the byte length of the content
to be written is compared against `maxRequestSize`. -/
def validateContentSize (config : SecurityConfig) (content : Str)
    (operation : FileOperation) : SecurityValidationResult :=
  let size := content.length
  match config.maxRequestSize with
  | some maxReq =>
    if maxReq < size then
      { allowed := false,
        reason := some (("Content size (").data ++ (Nat.repr size).data
          ++ (" bytes) exceeds maximum allowed (").data ++ (Nat.repr maxReq).data ++ (" bytes)").data) }
    else { allowed := true }
  | none => { allowed := true }

/-- `SecureSafetyManager.validateFilePath` on the canonical domain: malicious
patterns, containment (when `enablePathTraversalProtection`), blocked paths,
extension, then size for `read`/`stat`.  The access log, logger calls and
timing metadata are elided. -/
def validateFilePath (config : SecurityConfig) (fs : FS) (requestedPath : Path)
    (operation : FileOperation) (rootDirectory : Path) : SecurityValidationResult :=
  let normalizedPath := pathNormalize requestedPath
  if containsMaliciousPatterns normalizedPath then
    { allowed := false, reason := some (("Path contains malicious patterns").data) }
  else
    let canonicalPath := pathResolve normalizedPath
    let canonicalRoot := pathResolve rootDirectory
    if config.enablePathTraversalProtection && !(isWithinRoot canonicalPath canonicalRoot) then
      { allowed := false,
        reason := some (("Path outside allowed root directory: ").data ++ canonicalRoot),
        canonicalPath := some canonicalPath }
    else
      let relativePath := pathRelative canonicalRoot canonicalPath
      if isPathBlocked config relativePath then
        { allowed := false,
          reason := some (("Path is explicitly blocked: ").data ++ relativePath),
          canonicalPath := some canonicalPath }
      else
        let extensionResult := validateFileExtension config canonicalPath
        if !extensionResult.allowed then
          { allowed := false, reason := extensionResult.reason, canonicalPath := some canonicalPath }
        else
          if decide (operation = FileOperation.read) || decide (operation = FileOperation.stat) then
            let sizeResult := validateFileSize config fs canonicalPath
            if !sizeResult.allowed then
              { allowed := false, reason := sizeResult.reason, canonicalPath := some canonicalPath }
            else { allowed := true, canonicalPath := some canonicalPath }
          else { allowed := true, canonicalPath := some canonicalPath }

end SecureSafetyManager

namespace Errors

/-- `ErrorCategory` from `BaseError.ts`. -/
inductive ErrorCategory
  | validation | authentication | authorization | not_found | conflict
  | rate_limit | external_service | file_system | network | configuration | internal
  deriving DecidableEq, Repr

/-- A thrown `BaseError`, abstracted to the fields the retry executor
inspects: the error category, and the `retryAfter` payload in seconds that is
present exactly on `RateLimitError` instances. -/
structure LiftedError where
  category : ErrorCategory
  retryAfterSec : Option Nat := none
  deriving DecidableEq, Repr

/-- `BaseError.isRetryable`: `NETWORK`, `EXTERNAL_SERVICE` and `RATE_LIMIT`
are the retryable categories. -/
def isRetryable (e : LiftedError) : Bool :=
  decide (e.category = .network) || decide (e.category = .external_service)
    || decide (e.category = .rate_limit)

end Errors

namespace RateLimiter

/-- `RateLimitConfig` with the schema defaults of `ConfigSchema.ts`. -/
structure RateLimitConfig where
  enabled : Bool := true
  requestsPerMinute : Nat := 60
  burstLimit : Nat := 10
  windowSizeMs : Nat := 60000
  deriving DecidableEq, Repr

/-- `RateLimitEntry`: per-key request tracking state. -/
structure RateLimitEntry where
  count : Nat
  windowStart : Nat
  lastRequest : Nat
  deriving DecidableEq, Repr

/-- `RateLimitResult` (`resetTime` as epoch milliseconds, `retryAfter` in
seconds). -/
structure RateLimitResult where
  allowed : Bool
  remaining : Nat
  resetTime : Nat
  retryAfter : Option Nat := none
  deriving DecidableEq, Repr

/-- `RateLimitAlgorithm`. -/
inductive RateLimitAlgorithm
  | token_bucket | sliding_window | fixed_window
  deriving DecidableEq, Repr

/-- Ceiling division on naturals: `Math.ceil` of the exact rational `a / b`. -/
def natCeilDiv (a b : Nat) : Nat := (a + b - 1) / b

/-- `RateLimiter.checkTokenBucket`, acting on one key's stored entry (`none`
means the key is absent from the map).  The continuous refill
`Math.floor((timePassed / windowSizeMs) * requestsPerMinute)` is the exact
integer `timePassed * requestsPerMinute / windowSizeMs`.  On denial the
refill and `lastRequest` update persist for an existing entry (the source
mutates the stored object in place), while a freshly created entry is
discarded, since only the allow path calls `entries.set`. -/
def checkTokenBucket (config : RateLimitConfig) (now : Nat) (st : Option RateLimitEntry) :
    RateLimitResult × Option RateLimitEntry :=
  let entry := st.getD { count := config.burstLimit, windowStart := now, lastRequest := now }
  let timePassed := now - entry.lastRequest
  let tokensToAdd := timePassed * config.requestsPerMinute / config.windowSizeMs
  let refilled : RateLimitEntry :=
    { entry with count := min config.burstLimit (entry.count + tokensToAdd), lastRequest := now }
  if 0 < refilled.count then
    let consumed : RateLimitEntry := { refilled with count := refilled.count - 1 }
    ({ allowed := true, remaining := consumed.count,
       resetTime := now + (config.burstLimit - consumed.count) * config.windowSizeMs / config.requestsPerMinute },
     some consumed)
  else
    let retryAfter := natCeilDiv config.windowSizeMs (config.requestsPerMinute * 1000)
    ({ allowed := false, remaining := 0, resetTime := now + retryAfter * 1000,
       retryAfter := some retryAfter },
     if st.isSome then some refilled else none)

/-- `RateLimiter.checkSlidingWindow` on one key's stored entry.  On denial
nothing new is stored; the window-reset mutation would persist in place for
an existing entry, but a reset always leads to the allow branch whenever
`requestsPerMinute > 0`. -/
def checkSlidingWindow (config : RateLimitConfig) (now : Nat) (st : Option RateLimitEntry) :
    RateLimitResult × Option RateLimitEntry :=
  let windowStart := now - config.windowSizeMs
  let entry0 := st.getD { count := 0, windowStart := now, lastRequest := 0 }
  let entry := if entry0.windowStart < windowStart then
    { entry0 with count := 0, windowStart := windowStart } else entry0
  if entry.count < config.requestsPerMinute then
    let entry1 : RateLimitEntry := { entry with count := entry.count + 1, lastRequest := now }
    ({ allowed := true, remaining := config.requestsPerMinute - entry1.count,
       resetTime := entry1.windowStart + config.windowSizeMs }, some entry1)
  else
    let resetTime := entry.windowStart + config.windowSizeMs
    ({ allowed := false, remaining := 0, resetTime := resetTime,
       retryAfter := some (natCeilDiv (resetTime - now) 1000) },
     if st.isSome then some entry else none)

/-- `RateLimiter.checkFixedWindow`: like the sliding window, but the window
boundary is aligned to multiples of `windowSizeMs` since the epoch. -/
def checkFixedWindow (config : RateLimitConfig) (now : Nat) (st : Option RateLimitEntry) :
    RateLimitResult × Option RateLimitEntry :=
  let windowStart := now / config.windowSizeMs * config.windowSizeMs
  let entry0 := st.getD { count := 0, windowStart := windowStart, lastRequest := 0 }
  let entry := if entry0.windowStart ≠ windowStart then
    { entry0 with count := 0, windowStart := windowStart } else entry0
  if entry.count < config.requestsPerMinute then
    let entry1 : RateLimitEntry := { entry with count := entry.count + 1, lastRequest := now }
    ({ allowed := true, remaining := config.requestsPerMinute - entry1.count,
       resetTime := windowStart + config.windowSizeMs }, some entry1)
  else
    let resetTime := windowStart + config.windowSizeMs
    ({ allowed := false, remaining := 0, resetTime := resetTime,
       retryAfter := some (natCeilDiv (resetTime - now) 1000) },
     if st.isSome then some entry else none)

/-- `RateLimiter.checkLimit` for one key: the disabled short-circuit, then
the dispatch on the selected algorithm (the `totalRequests` statistics
counter is elided). -/
def checkLimit (config : RateLimitConfig) (algorithm : RateLimitAlgorithm) (now : Nat)
    (st : Option RateLimitEntry) : RateLimitResult × Option RateLimitEntry :=
  if !config.enabled then
    ({ allowed := true, remaining := config.requestsPerMinute,
       resetTime := now + config.windowSizeMs }, st)
  else
    match algorithm with
    | .token_bucket => checkTokenBucket config now st
    | .sliding_window => checkSlidingWindow config now st
    | .fixed_window => checkFixedWindow config now st

/-- `RateLimiter.consume`: a denied check is raised as a `RateLimitError`
carrying the result's `retryAfter` (defaulting to 60) in seconds. -/
def consume (config : RateLimitConfig) (algorithm : RateLimitAlgorithm) (now : Nat)
    (st : Option RateLimitEntry) : Except Errors.LiftedError (Option RateLimitEntry) :=
  let step := checkLimit config algorithm now st
  if !step.1.allowed then
    .error { category := .rate_limit, retryAfterSec := some (step.1.retryAfter.getD 60) }
  else .ok step.2

/-- A sequence of checks for one key at the given times, threading the stored
entry. -/
def runChecks (config : RateLimitConfig) (algorithm : RateLimitAlgorithm) :
    List Nat → Option RateLimitEntry → List RateLimitResult × Option RateLimitEntry
  | [], st => ([], st)
  | t :: ts, st =>
    let step := checkLimit config algorithm t st
    let rest := runChecks config algorithm ts step.2
    (step.1 :: rest.1, rest.2)

/-- The successive stored entries (one after each check) of a check sequence. -/
def runStates (config : RateLimitConfig) (algorithm : RateLimitAlgorithm) :
    List Nat → Option RateLimitEntry → List (Option RateLimitEntry)
  | [], _ => []
  | t :: ts, st =>
    let st1 := (checkLimit config algorithm t st).2
    st1 :: runStates config algorithm ts st1

/-- The configured ceiling of each algorithm (§3 invariant). -/
def ceilingOf (config : RateLimitConfig) : RateLimitAlgorithm → Nat
  | .token_bucket => config.burstLimit
  | .sliding_window => config.requestsPerMinute
  | .fixed_window => config.requestsPerMinute

/-- Decidable form of `count ≤ c` for a stored entry. -/
def entryWithinCeiling (c : Nat) : Option RateLimitEntry → Bool
  | none => true
  | some e => decide (e.count ≤ c)

end RateLimiter

namespace ErrorUtils

/-- `RetryConfig` with the defaults of `DEFAULT_RETRY_CONFIG`. -/
structure RetryConfig where
  maxAttempts : Nat := 3
  baseDelayMs : Nat := 1000
  maxDelayMs : Nat := 30000
  backoffMultiplier : Nat := 2
  deriving DecidableEq, Repr

/-- Outcome of `ErrorUtils.retry`: the surfaced result, the number of times
the operation was invoked, and the delays slept between attempts, in order. -/
structure RetryOutcome (α : Type) where
  result : Except Errors.LiftedError α
  attempts : Nat
  delays : List Nat

/-- Loop body of `ErrorUtils.retry`: `attempt` is the 1-based attempt number
and `fuel` the remaining iterations (`maxAttempts - attempt + 1`); the
operation is a function of the attempt number, so deterministic per-attempt
behaviour is expressible.  The `fuel = 0` base case is unreachable whenever
`maxAttempts ≥ 1` (the source would rethrow an undefined `lastError`). -/
def retryGo (config : RetryConfig) (op : Nat → Except Errors.LiftedError α) :
    Nat → Nat → RetryOutcome α
  | _, 0 => { result := .error { category := .internal }, attempts := 0, delays := [] }
  | attempt, fuel + 1 =>
    match op attempt with
    | .ok a => { result := .ok a, attempts := 1, delays := [] }
    | .error e =>
      if fuel = 0 then { result := .error e, attempts := 1, delays := [] }
      else if !Errors.isRetryable e then { result := .error e, attempts := 1, delays := [] }
      else
        let capped := min (config.baseDelayMs * config.backoffMultiplier ^ (attempt - 1)) config.maxDelayMs
        let delayMs := match e.retryAfterSec with
          | some ra => max capped (ra * 1000)
          | none => capped
        let rest := retryGo config op (attempt + 1) fuel
        { result := rest.result, attempts := rest.attempts + 1, delays := delayMs :: rest.delays }

/-- `ErrorUtils.retry`: up to `maxAttempts` attempts with capped exponential
backoff, stopping early on a non-retryable error. -/
def retry (config : RetryConfig) (op : Nat → Except Errors.LiftedError α) : RetryOutcome α :=
  retryGo config op 1 config.maxAttempts

end ErrorUtils

namespace ToolRegistry

/-- `ToolErrorType` from `tools/types.ts`. -/
inductive ToolErrorType
  | validation_error | execution_error | permission_error | not_found_error | cancelled
  deriving DecidableEq, Repr

/-- Errors thrown around the registry: the plain `Error` of `register`, the
`ToolError` of `createInvocation` (whose details carry `availableTools`), and
the codebase's `ConfigurationError` class, which the registry never throws. -/
inductive RegistryError
  | genericError (message : Str)
  | toolError (message : Str) (type : ToolErrorType) (availableTools : List Str)
  | configurationError (message : Str) (configKey : Str)
  deriving DecidableEq, Repr

/-- Whether a thrown error is an instance of the `ConfigurationError` class. -/
def RegistryError.isConfigurationError : RegistryError → Bool
  | .configurationError _ _ => true
  | _ => false

/-- The registry, as its tool-name map in insertion order (per-tool behaviour
is modelled separately, tool by tool). -/
structure Registry where
  tools : List Str
  deriving DecidableEq, Repr

/-- `ToolRegistry.register`: a duplicate name throws a plain `Error`;
otherwise the tool is added. -/
def register (r : Registry) (name : Str) : Except RegistryError Registry :=
  if name ∈ r.tools then
    .error (.genericError (("Tool with name '").data ++ name ++ ("' is already registered").data))
  else .ok { tools := r.tools ++ [name] }

/-- `ToolRegistry.createInvocation`, up to the per-tool parameter-validation
delegation: an unregistered name throws a `ToolError` of kind
`NOT_FOUND_ERROR` whose details list all registered tool names. -/
def createInvocation (r : Registry) (name : Str) : Except RegistryError Unit :=
  if name ∈ r.tools then .ok ()
  else .error (.toolError (("Unknown tool: ").data ++ name) .not_found_error r.tools)

/-- The registry `CoreManager.registerBuiltInTools` builds. -/
def builtInRegistry : Registry :=
  { tools := [("read_file").data, ("write_file").data, ("list_directory").data] }

end ToolRegistry

namespace Confirmation

/-- `ConfirmationOutcome`. -/
inductive ConfirmationOutcome
  | approved | denied | cancelled
  deriving DecidableEq, Repr

/-- `ToolCallConfirmationDetails`. -/
structure ToolCallConfirmationDetails where
  message : Str
  description : Str
  destructive : Option Bool := none
  deriving DecidableEq, Repr

/-- `ToolLocation`. -/
structure ToolLocation where
  path : Path
  description : Option Str := none
  deriving DecidableEq, Repr

/-- `ConfirmationRequest`. -/
structure ConfirmationRequest where
  toolName : Str
  description : Str
  details : ToolCallConfirmationDetails
  locations : List ToolLocation
  deriving DecidableEq, Repr

/-- `ConfirmationResponse`. -/
structure ConfirmationResponse where
  outcome : ConfirmationOutcome
  message : Option Str := none
  deriving DecidableEq, Repr

/-- A `ConfirmationHandler`, as its `requestConfirmation` function. -/
abbrev ConfirmationHandler := ConfirmationRequest → ConfirmationResponse

/-- The hardcoded read-only tool-name set of `DefaultConfirmationHandler`. -/
def readOnlyTools : List Str :=
  [("read_file").data, ("list_directory").data, ("grep").data, ("glob").data]

/-- `DefaultConfirmationHandler.requestConfirmation`: the read-only branch
returns `APPROVED`, and the fallthrough branch also returns `APPROVED` after
logging a warning — the source auto-approves everything. -/
def defaultRequestConfirmation : ConfirmationHandler := fun request =>
  if decide (request.toolName ∈ readOnlyTools) && !(request.details.destructive.getD false) then
    { outcome := .approved }
  else
    { outcome := .approved }

/-- `ConfirmationManager.requestConfirmation`: assemble the request and defer
to the installed handler. -/
def managerRequestConfirmation (handler : ConfirmationHandler) (toolName : Str)
    (description : Str) (details : ToolCallConfirmationDetails)
    (locations : List ToolLocation) : ConfirmationResponse :=
  handler { toolName := toolName, description := description, details := details,
            locations := locations }

end Confirmation

namespace WriteFileTool

/-- Validated `WriteFileParams`. -/
structure WriteFileParams where
  path : Path
  content : Str
  create_dirs : Option Bool := none
  deriving DecidableEq, Repr

/-- Raw JSON-like parameter values, as delivered in a model response. -/
inductive RawValue
  | str (s : Str)
  | num (n : Int)
  | boolVal (b : Bool)
  | nullVal
  deriving DecidableEq, Repr

/-- A raw `parameters` object: a field map. -/
abbrev RawParams := List (Str × RawValue)

/-- Field lookup in a raw parameter object. -/
def getField (raw : RawParams) (k : Str) : Option RawValue :=
  (raw.find? (fun e => decide (e.1 = k))).map (fun e => e.2)

/-- The zod schema `WriteFileParams.parse`: `path` and `content` are required
strings, `create_dirs` an optional boolean; any other shape throws a
validation error. -/
def parseWriteParams (raw : RawParams) : Option WriteFileParams :=
  match getField raw (("path").data), getField raw (("content").data) with
  | some (.str p), some (.str c) =>
    match getField raw (("create_dirs").data) with
    | none => some { path := p, content := c }
    | some (.boolVal b) => some { path := p, content := c, create_dirs := some b }
    | some _ => none
  | _, _ => none

/-- `WriteFileInvocation.getDescription`. -/
def getDescription (params : WriteFileParams) : Str :=
  let lines := (params.content.splitOn '\n').length
  let chars := params.content.length
  ("Write ").data ++ (Nat.repr lines).data ++ (" lines (").data ++ (Nat.repr chars).data
    ++ (" characters) to: ").data ++ params.path

/-- `WriteFileInvocation.getToolLocations`. -/
def getToolLocations (params : WriteFileParams) : List Confirmation.ToolLocation :=
  [{ path := params.path, description := some (("File to write").data) }]

/-- The text `File ` opening the overwrite warning. -/
def fileWord : Str := ("File ").data

/-- The tail of the overwrite warning. -/
def overwriteTail : Str := (" already exists and will be overwritten.").data

/-- `WriteFileInvocation.shouldConfirmExecute`: confirmation details exactly
when the target file already exists (`fs.promises.access` succeeds). -/
def shouldConfirmExecute (fs : FS) (params : WriteFileParams) :
    Option Confirmation.ToolCallConfirmationDetails :=
  if fs.fileExists params.path then
    some { message := fileWord ++ params.path ++ overwriteTail,
           description := getDescription params,
           destructive := some true }
  else none

/-- `ToolResult`. -/
structure ToolResult where
  llmContent : Str
  returnDisplay : Str
  deriving DecidableEq, Repr

/-- `WriteFileInvocation.execute`: the legacy safety validation gates every
filesystem effect; on success the file is written and a summary is returned.
In the filesystem model parent directories always exist, so the
`create_dirs`, `ENOENT` and `EACCES` branches cannot fire; the markdown and
emoji decoration of `returnDisplay` is elided. -/
def execute (config : SafetyManager.SafetyConfig) (fs : FS) (params : WriteFileParams) :
    Except Str (ToolResult × FS) :=
  let validation := SafetyManager.validateFile config fs params.path FileOperation.write
  if !validation.valid then
    .error (("File access denied: ").data ++ (validation.reason.getD []))
  else
    let safePath := validation.safePath.getD []
    let fs2 := fs.writeFile safePath params.content
    let lines := (params.content.splitOn '\n').length
    let chars := params.content.length
    .ok ({ llmContent := ("Successfully wrote ").data ++ (Nat.repr lines).data
             ++ (" lines (").data ++ (Nat.repr chars).data ++ (" characters) to ").data
             ++ params.path,
           returnDisplay := ("File written successfully: ").data ++ pathBasename safePath },
         fs2)

end WriteFileTool

namespace CoreManager

/-- Pipeline stages observed while processing one tool call, recorded in
order of occurrence, to state the §2/§4.1 ordering properties. -/
inductive StageEvent
  | paramValidation (passed : Bool)
  | securityCheck (passed : Bool)
  | rateLimitCheck (passed : Bool)
  | confirmationRequested
  | confirmationResolved (outcome : Confirmation.ConfirmationOutcome)
  | fsWrite
  deriving DecidableEq, Repr

/-- The conversation entry recorded for one tool call by `executeToolCalls`. -/
inductive ToolOutcome
  | success (llmContent : Str)
  | cancelledByUser (content : Str)
  | failed (content : Str)
  deriving DecidableEq, Repr

/-- Result of processing one tool call: the recorded outcome, the filesystem
afterwards, and the observed stage events in order. -/
structure ExecResult where
  outcome : ToolOutcome
  fs : FS
  trace : List StageEvent
  deriving DecidableEq, Repr

/-- The tool name `write_file`. -/
def writeToolName : Str := ("write_file").data

/-- The text prefixed to a caught error's message in the tool response. -/
def failHead : Str := ("Tool execution failed: ").data

/-- The message of a thrown parameter-validation `ToolError`. -/
def paramFailMsg : Str := ("Parameter validation failed").data

/-- The text opening a cancellation tool response. -/
def cancelHead : Str := ("Tool execution cancelled by user: ").data

/-- The fallback reason of a cancellation tool response. -/
def noReasonMsg : Str := ("No reason provided").data

/-- The execution stage of `executeToolCalls` for a write_file invocation:
`invocation.execute`, whose internal safety validation is the security check
(recorded as an event), with the filesystem effect recorded after it; a
thrown error is caught and recorded as a failed tool response. -/
def runWriteExecute (config : SafetyManager.SafetyConfig) (fs : FS)
    (params : WriteFileTool.WriteFileParams) (trace : List StageEvent) : ExecResult :=
  let validation := SafetyManager.validateFile config fs params.path FileOperation.write
  let trace1 := trace ++ [StageEvent.securityCheck validation.valid]
  match WriteFileTool.execute config fs params with
  | .error msg =>
    { outcome := .failed (failHead ++ msg), fs := fs, trace := trace1 }
  | .ok (result, fs2) =>
    { outcome := .success result.llmContent, fs := fs2,
      trace := trace1 ++ [StageEvent.fsWrite] }

/-- One iteration of `CoreManager.executeToolCalls`, instantiated at the
`write_file` tool (whose registry lookup always succeeds, since
`registerBuiltInTools` registers it): create the invocation (parameter
validation), ask `shouldConfirmExecute`, run the confirmation gate through
the `ConfirmationManager`, then execute.  A thrown `ToolError` from parameter
validation is caught and recorded as a failed tool response.  No rate-limit
check occurs anywhere on this path. -/
def executeWriteToolCall (config : SafetyManager.SafetyConfig)
    (handler : Confirmation.ConfirmationHandler) (fs : FS)
    (raw : WriteFileTool.RawParams) : ExecResult :=
  match WriteFileTool.parseWriteParams raw with
  | none =>
    { outcome := .failed (failHead ++ paramFailMsg),
      fs := fs, trace := [StageEvent.paramValidation false] }
  | some params =>
    let trace0 := [StageEvent.paramValidation true]
    match WriteFileTool.shouldConfirmExecute fs params with
    | some details =>
      let response := Confirmation.managerRequestConfirmation handler writeToolName
        (WriteFileTool.getDescription params) details (WriteFileTool.getToolLocations params)
      let trace1 := trace0
        ++ [StageEvent.confirmationRequested, StageEvent.confirmationResolved response.outcome]
      if response.outcome ≠ Confirmation.ConfirmationOutcome.approved then
        { outcome := .cancelledByUser (cancelHead ++ (response.message.getD noReasonMsg)),
          fs := fs, trace := trace1 }
      else runWriteExecute config fs params trace1
    | none => runWriteExecute config fs params trace0

/-- The confirmation request the executor assembles (through the
`ConfirmationManager`) for a write_file call whose target already exists. -/
def overwriteRequest (params : WriteFileTool.WriteFileParams) : Confirmation.ConfirmationRequest :=
  { toolName := writeToolName,
    description := WriteFileTool.getDescription params,
    details := { message := WriteFileTool.fileWord ++ params.path ++ WriteFileTool.overwriteTail,
                 description := WriteFileTool.getDescription params,
                 destructive := some true },
    locations := WriteFileTool.getToolLocations params }

end CoreManager

/-!
Theorems.  Each claim of the specification corresponds to exactly one theorem
below (plus, where applicable, a counterexample and a witness).
-/

/-- C1: the containment requirement fails in the code.  The legacy
`SafetyManager.validateFilePath` — the validator `CoreManager` wires into
every built-in tool — accepts the canonical path `/project-evil` under the
canonical root `/project` because of its bare `startsWith` test, although
that path is not a descendant of (or equal to) the root and merely shares
the root's string prefix; the secure manager's separator-aware containment
check rejects the very same input. -/
theorem legacy_prefix_containment_bug :
    (SafetyManager.validateFilePath { rootDirectory := ("/project").data }
        (("/project-evil").data)).valid = true
    ∧ (SafetyManager.validateFilePath { rootDirectory := ("/project").data }
        (("/project-evil").data)).safePath = some (("/project-evil").data)
    ∧ descendantOrEqual (("/project").data) (("/project-evil").data) = false
    ∧ (SecureSafetyManager.validateFilePath {} ⟨[]⟩ (("/project-evil").data)
        FileOperation.read (("/project").data)).allowed = false := by
  exact ⟨rfl, rfl, rfl, rfl⟩

/-- C5: the write pipeline performs no content-size check.  With a security
policy whose `maxRequestSize` is 4, a write_file call carrying 5 bytes of
content passes the executor and reaches the filesystem (the file is created
with exactly that content), even though
`SecureSafetyManager.validateContentSize` — which nothing on the write path
ever invokes — rejects the very same content. -/
theorem write_content_size_unchecked :
    (CoreManager.executeWriteToolCall { rootDirectory := ("/project").data }
        Confirmation.defaultRequestConfirmation ⟨[]⟩
        [((("path").data), WriteFileTool.RawValue.str (("/project/a.txt").data)),
         ((("content").data), WriteFileTool.RawValue.str (("hello").data))]).fs.lookup
        (("/project/a.txt").data) = some (("hello").data)
    ∧ (∃ m, (CoreManager.executeWriteToolCall { rootDirectory := ("/project").data }
        Confirmation.defaultRequestConfirmation ⟨[]⟩
        [((("path").data), WriteFileTool.RawValue.str (("/project/a.txt").data)),
         ((("content").data), WriteFileTool.RawValue.str (("hello").data))]).outcome
        = CoreManager.ToolOutcome.success m)
    ∧ (SecureSafetyManager.validateContentSize { maxRequestSize := some 4 }
        (("hello").data) FileOperation.write).allowed = false
    ∧ 4 < (("hello").data).length := by
  exact ⟨rfl, ⟨_, rfl⟩, rfl, by decide⟩

/-- C2 counterexample: with root `/project`, an existing file
`/project/config.json` and the (approving) default confirmation handler, the
executor runs the write_file call to completion — so the execution stage
runs — yet no rate-limit check occurs anywhere in the observed stage trace,
and the security check occurs after, not before, the confirmation stage.
This refutes the claimed
validation → security → rate-limit → confirmation → execution order. -/
theorem executor_order_counterexample :
    (CoreManager.executeWriteToolCall { rootDirectory := ("/project").data }
        Confirmation.defaultRequestConfirmation
        ⟨[((("/project/config.json").data), ("old").data)]⟩
        [((("path").data), WriteFileTool.RawValue.str (("/project/config.json").data)),
         ((("content").data), WriteFileTool.RawValue.str (("x").data))]).trace
      = [CoreManager.StageEvent.paramValidation true,
         CoreManager.StageEvent.confirmationRequested,
         CoreManager.StageEvent.confirmationResolved Confirmation.ConfirmationOutcome.approved,
         CoreManager.StageEvent.securityCheck true,
         CoreManager.StageEvent.fsWrite]
    ∧ CoreManager.StageEvent.rateLimitCheck true
        ∉ (CoreManager.executeWriteToolCall { rootDirectory := ("/project").data }
            Confirmation.defaultRequestConfirmation
            ⟨[((("/project/config.json").data), ("old").data)]⟩
            [((("path").data), WriteFileTool.RawValue.str (("/project/config.json").data)),
             ((("content").data), WriteFileTool.RawValue.str (("x").data))]).trace
    ∧ CoreManager.StageEvent.rateLimitCheck false
        ∉ (CoreManager.executeWriteToolCall { rootDirectory := ("/project").data }
            Confirmation.defaultRequestConfirmation
            ⟨[((("/project/config.json").data), ("old").data)]⟩
            [((("path").data), WriteFileTool.RawValue.str (("/project/config.json").data)),
             ((("content").data), WriteFileTool.RawValue.str (("x").data))]).trace := by
  refine ⟨rfl, ?_, ?_⟩ <;> decide

/-- C9 counterexample: with the default configuration
(`requestsPerMinute = 60`, `windowSizeMs = 60000`), a token-bucket request
arriving with an empty bucket is denied with `retryAfter = 1` second, whereas
the claimed formula `ceil(windowSizeMs / requestsPerMinute)` evaluates to
1000 — the code divides by a further 1000 to convert to seconds. -/
theorem token_bucket_retry_after_counterexample :
    (RateLimiter.checkTokenBucket {} 0 (some ⟨0, 0, 0⟩)).1.allowed = false
    ∧ (RateLimiter.checkTokenBucket {} 0 (some ⟨0, 0, 0⟩)).1.retryAfter = some 1
    ∧ RateLimiter.natCeilDiv 60000 60 = 1000
    ∧ (1 : Nat) ≠ 1000 := by
  exact ⟨rfl, rfl, by decide, by decide⟩

/-- C7 counterexample: re-registering `write_file` in the built-in registry
fails, but the thrown error is the plain `Error` of `ToolRegistry.register`,
not an instance of the codebase's `ConfigurationError` class. -/
theorem register_duplicate_error_kind_counterexample :
    (ToolRegistry.register ToolRegistry.builtInRegistry (("write_file").data)
      = .error (.genericError ((("Tool with name '").data ++ ("write_file").data
          ++ ("' is already registered").data))))
    ∧ (ToolRegistry.RegistryError.isConfigurationError
        (.genericError ((("Tool with name '").data ++ ("write_file").data
          ++ ("' is already registered").data))) = false)
    ∧ ∀ msg key, ToolRegistry.register ToolRegistry.builtInRegistry (("write_file").data)
        ≠ .error (.configurationError msg key) := by
  refine ⟨rfl, rfl, ?_⟩
  intro msg key h
  rw [show ToolRegistry.register ToolRegistry.builtInRegistry (("write_file").data)
      = .error (.genericError ((("Tool with name '").data ++ (("write_file").data)
        ++ ("' is already registered").data))) from rfl] at h
  simp at h

/-- Helper: the execution stage (which runs `WriteFileInvocation.execute`)
never records a cancellation outcome. -/
theorem runWriteExecute_not_cancelled (config : SafetyManager.SafetyConfig) (fs : FS)
    (params : WriteFileTool.WriteFileParams) (trace : List CoreManager.StageEvent) (c : Str) :
    (CoreManager.runWriteExecute config fs params trace).outcome
      ≠ CoreManager.ToolOutcome.cancelledByUser c := by
  unfold CoreManager.runWriteExecute WriteFileTool.execute
  by_cases hv : (SafetyManager.validateFile config fs params.path FileOperation.write).valid <;>
    simp [hv]

/-- Helper: the execution stage only appends events to the trace it is
given. -/
theorem runWriteExecute_trace_extends (config : SafetyManager.SafetyConfig) (fs : FS)
    (params : WriteFileTool.WriteFileParams) (trace : List CoreManager.StageEvent) :
    ∃ tail, (CoreManager.runWriteExecute config fs params trace).trace = trace ++ tail := by
  unfold CoreManager.runWriteExecute
  cases hres : WriteFileTool.execute config fs params with
  | error msg =>
    refine ⟨[CoreManager.StageEvent.securityCheck
      (SafetyManager.validateFile config fs params.path FileOperation.write).valid], ?_⟩
    simp [hres]
  | ok pair =>
    refine ⟨[CoreManager.StageEvent.securityCheck
      (SafetyManager.validateFile config fs params.path FileOperation.write).valid,
      CoreManager.StageEvent.fsWrite], ?_⟩
    simp [hres]

/-- Helper: the executor's behaviour on a parameter-validation failure. -/
theorem execCall_parse_fail (config : SafetyManager.SafetyConfig)
    (handler : Confirmation.ConfirmationHandler) (fs : FS) (raw : WriteFileTool.RawParams)
    (hparse : WriteFileTool.parseWriteParams raw = none) :
    CoreManager.executeWriteToolCall config handler fs raw
      = { outcome := .failed (CoreManager.failHead ++ CoreManager.paramFailMsg),
          fs := fs, trace := [CoreManager.StageEvent.paramValidation false] } := by
  simp only [CoreManager.executeWriteToolCall, hparse]

/-- Helper: the executor's behaviour when no confirmation is required. -/
theorem execCall_no_confirm (config : SafetyManager.SafetyConfig)
    (handler : Confirmation.ConfirmationHandler) (fs : FS) (raw : WriteFileTool.RawParams)
    (params : WriteFileTool.WriteFileParams)
    (hparse : WriteFileTool.parseWriteParams raw = some params)
    (hc : WriteFileTool.shouldConfirmExecute fs params = none) :
    CoreManager.executeWriteToolCall config handler fs raw
      = CoreManager.runWriteExecute config fs params
          [CoreManager.StageEvent.paramValidation true] := by
  simp only [CoreManager.executeWriteToolCall, hparse, hc]

/-- Helper: the executor's behaviour when the confirmation gate refuses. -/
theorem execCall_confirm_refused (config : SafetyManager.SafetyConfig)
    (handler : Confirmation.ConfirmationHandler) (fs : FS) (raw : WriteFileTool.RawParams)
    (params : WriteFileTool.WriteFileParams) (d : Confirmation.ToolCallConfirmationDetails)
    (hparse : WriteFileTool.parseWriteParams raw = some params)
    (hc : WriteFileTool.shouldConfirmExecute fs params = some d)
    (hne : (Confirmation.managerRequestConfirmation handler CoreManager.writeToolName
        (WriteFileTool.getDescription params) d (WriteFileTool.getToolLocations params)).outcome
        ≠ Confirmation.ConfirmationOutcome.approved) :
    CoreManager.executeWriteToolCall config handler fs raw
      = { outcome := .cancelledByUser (CoreManager.cancelHead
            ++ ((Confirmation.managerRequestConfirmation handler CoreManager.writeToolName
              (WriteFileTool.getDescription params) d
              (WriteFileTool.getToolLocations params)).message.getD CoreManager.noReasonMsg)),
          fs := fs,
          trace := [CoreManager.StageEvent.paramValidation true,
            CoreManager.StageEvent.confirmationRequested,
            CoreManager.StageEvent.confirmationResolved
              (Confirmation.managerRequestConfirmation handler CoreManager.writeToolName
                (WriteFileTool.getDescription params) d
                (WriteFileTool.getToolLocations params)).outcome] } := by
  simp only [CoreManager.executeWriteToolCall, hparse, hc]
  rw [if_pos hne]
  rfl

/-- Helper: the executor's behaviour when the confirmation gate approves. -/
theorem execCall_confirm_approved (config : SafetyManager.SafetyConfig)
    (handler : Confirmation.ConfirmationHandler) (fs : FS) (raw : WriteFileTool.RawParams)
    (params : WriteFileTool.WriteFileParams) (d : Confirmation.ToolCallConfirmationDetails)
    (hparse : WriteFileTool.parseWriteParams raw = some params)
    (hc : WriteFileTool.shouldConfirmExecute fs params = some d)
    (ho : (Confirmation.managerRequestConfirmation handler CoreManager.writeToolName
        (WriteFileTool.getDescription params) d (WriteFileTool.getToolLocations params)).outcome
        = Confirmation.ConfirmationOutcome.approved) :
    CoreManager.executeWriteToolCall config handler fs raw
      = CoreManager.runWriteExecute config fs params
          [CoreManager.StageEvent.paramValidation true,
           CoreManager.StageEvent.confirmationRequested,
           CoreManager.StageEvent.confirmationResolved
             Confirmation.ConfirmationOutcome.approved] := by
  simp only [CoreManager.executeWriteToolCall, hparse, hc]
  rw [if_neg (fun hn => hn ho), ho]
  rfl

/-- Helper: the execution stage under a passing security check appends the
security event and then the filesystem-effect event. -/
theorem runWriteExecute_valid_trace (config : SafetyManager.SafetyConfig) (fs : FS)
    (params : WriteFileTool.WriteFileParams) (trace : List CoreManager.StageEvent)
    (hv : (SafetyManager.validateFile config fs params.path FileOperation.write).valid = true) :
    (CoreManager.runWriteExecute config fs params trace).trace
      = trace ++ [CoreManager.StageEvent.securityCheck true, CoreManager.StageEvent.fsWrite] := by
  unfold CoreManager.runWriteExecute WriteFileTool.execute
  simp [hv]

/-- Helper: the execution stage under a failing security check records the
failed security event, leaves the filesystem unchanged, and performs no
write. -/
theorem runWriteExecute_invalid (config : SafetyManager.SafetyConfig) (fs : FS)
    (params : WriteFileTool.WriteFileParams) (trace : List CoreManager.StageEvent)
    (hv : (SafetyManager.validateFile config fs params.path FileOperation.write).valid = false) :
    (CoreManager.runWriteExecute config fs params trace).trace
        = trace ++ [CoreManager.StageEvent.securityCheck false]
      ∧ (CoreManager.runWriteExecute config fs params trace).fs = fs := by
  unfold CoreManager.runWriteExecute WriteFileTool.execute
  simp [hv]

/-- C2 amended: in the executor, the execution stage runs only after
parameter validation and — when confirmation is required — an approved
confirmation, in that order; the security check happens inside the execution
stage, after confirmation, and gates every filesystem effect; and no
rate-limit stage exists anywhere on the tool-call path. -/
theorem executor_stage_order (config : SafetyManager.SafetyConfig)
    (handler : Confirmation.ConfirmationHandler) (fs : FS)
    (raw : WriteFileTool.RawParams) :
    (∀ passed, CoreManager.StageEvent.rateLimitCheck passed
        ∉ (CoreManager.executeWriteToolCall config handler fs raw).trace)
    ∧ (CoreManager.StageEvent.fsWrite
          ∈ (CoreManager.executeWriteToolCall config handler fs raw).trace →
        (CoreManager.executeWriteToolCall config handler fs raw).trace
          = [CoreManager.StageEvent.paramValidation true,
             CoreManager.StageEvent.securityCheck true,
             CoreManager.StageEvent.fsWrite]
        ∨ (CoreManager.executeWriteToolCall config handler fs raw).trace
          = [CoreManager.StageEvent.paramValidation true,
             CoreManager.StageEvent.confirmationRequested,
             CoreManager.StageEvent.confirmationResolved Confirmation.ConfirmationOutcome.approved,
             CoreManager.StageEvent.securityCheck true,
             CoreManager.StageEvent.fsWrite])
    ∧ ((CoreManager.executeWriteToolCall config handler fs raw).fs ≠ fs →
        CoreManager.StageEvent.fsWrite
          ∈ (CoreManager.executeWriteToolCall config handler fs raw).trace) := by
  cases hp : WriteFileTool.parseWriteParams raw with
  | none =>
    rw [execCall_parse_fail config handler fs raw hp]
    refine ⟨?_, ?_, ?_⟩
    · intro passed; simp
    · intro hmem; simp at hmem
    · intro hfs; exact absurd rfl hfs
  | some params =>
    cases hc : WriteFileTool.shouldConfirmExecute fs params with
    | none =>
      rw [execCall_no_confirm config handler fs raw params hp hc]
      by_cases hv : (SafetyManager.validateFile config fs params.path FileOperation.write).valid
      · have ht := runWriteExecute_valid_trace config fs params
          [CoreManager.StageEvent.paramValidation true] hv
        refine ⟨?_, ?_, ?_⟩
        · intro passed; rw [ht]; simp
        · intro _; left; rw [ht]; rfl
        · intro _; rw [ht]; simp
      · have ht := runWriteExecute_invalid config fs params
          [CoreManager.StageEvent.paramValidation true] (by simpa using hv)
        refine ⟨?_, ?_, ?_⟩
        · intro passed; rw [ht.1]; simp
        · intro hmem; rw [ht.1] at hmem; simp at hmem
        · intro hfs; exact absurd ht.2 hfs
    | some details =>
      by_cases ho : (Confirmation.managerRequestConfirmation handler CoreManager.writeToolName
          (WriteFileTool.getDescription params) details
          (WriteFileTool.getToolLocations params)).outcome
            = Confirmation.ConfirmationOutcome.approved
      · rw [execCall_confirm_approved config handler fs raw params details hp hc ho]
        by_cases hv : (SafetyManager.validateFile config fs params.path FileOperation.write).valid
        · have ht := runWriteExecute_valid_trace config fs params
            [CoreManager.StageEvent.paramValidation true,
             CoreManager.StageEvent.confirmationRequested,
             CoreManager.StageEvent.confirmationResolved
               Confirmation.ConfirmationOutcome.approved] hv
          refine ⟨?_, ?_, ?_⟩
          · intro passed; rw [ht]; simp
          · intro _; right; rw [ht]; rfl
          · intro _; rw [ht]; simp
        · have ht := runWriteExecute_invalid config fs params
            [CoreManager.StageEvent.paramValidation true,
             CoreManager.StageEvent.confirmationRequested,
             CoreManager.StageEvent.confirmationResolved
               Confirmation.ConfirmationOutcome.approved] (by simpa using hv)
          refine ⟨?_, ?_, ?_⟩
          · intro passed; rw [ht.1]; simp
          · intro hmem; rw [ht.1] at hmem; simp at hmem
          · intro hfs; exact absurd ht.2 hfs
      · rw [execCall_confirm_refused config handler fs raw params details hp hc ho]
        refine ⟨?_, ?_, ?_⟩
        · intro passed; simp
        · intro hmem; simp at hmem
        · intro hfs; exact absurd rfl hfs

/-- C2 witness: the ordering property instantiated at a concrete call whose
execution stage runs. -/
theorem executor_stage_order_witness :
    (CoreManager.executeWriteToolCall { rootDirectory := ("/project").data }
        Confirmation.defaultRequestConfirmation
        ⟨[((("/project/config.json").data), ("old").data)]⟩
        [((("path").data), WriteFileTool.RawValue.str (("/project/config.json").data)),
         ((("content").data), WriteFileTool.RawValue.str (("x").data))]).trace
      = [CoreManager.StageEvent.paramValidation true,
         CoreManager.StageEvent.securityCheck true,
         CoreManager.StageEvent.fsWrite]
    ∨ (CoreManager.executeWriteToolCall { rootDirectory := ("/project").data }
        Confirmation.defaultRequestConfirmation
        ⟨[((("/project/config.json").data), ("old").data)]⟩
        [((("path").data), WriteFileTool.RawValue.str (("/project/config.json").data)),
         ((("content").data), WriteFileTool.RawValue.str (("x").data))]).trace
      = [CoreManager.StageEvent.paramValidation true,
         CoreManager.StageEvent.confirmationRequested,
         CoreManager.StageEvent.confirmationResolved Confirmation.ConfirmationOutcome.approved,
         CoreManager.StageEvent.securityCheck true,
         CoreManager.StageEvent.fsWrite] :=
  (executor_stage_order { rootDirectory := ("/project").data }
      Confirmation.defaultRequestConfirmation
      ⟨[((("/project/config.json").data), ("old").data)]⟩
      [((("path").data), WriteFileTool.RawValue.str (("/project/config.json").data)),
       ((("content").data), WriteFileTool.RawValue.str (("x").data))]).2.1 (by decide)

/-- C3: a write_file call whose target file exists always produces a
confirmation request before anything executes, and when the confirmation
handler answers `Denied`, the execution stage never runs, the filesystem is
byte-for-byte unchanged, and the recorded outcome is the cancellation
message, not an error entry. -/
theorem write_denied_cancellation (config : SafetyManager.SafetyConfig) (fs : FS)
    (raw : WriteFileTool.RawParams) (params : WriteFileTool.WriteFileParams)
    (handler : Confirmation.ConfirmationHandler)
    (hparse : WriteFileTool.parseWriteParams raw = some params)
    (hexists : fs.fileExists params.path = true)
    (hdeny : (handler (CoreManager.overwriteRequest params)).outcome
      = Confirmation.ConfirmationOutcome.denied) :
    (∀ h2 : Confirmation.ConfirmationHandler, ∃ rest,
      (CoreManager.executeWriteToolCall config h2 fs raw).trace
        = CoreManager.StageEvent.paramValidation true
            :: CoreManager.StageEvent.confirmationRequested :: rest)
    ∧ (CoreManager.executeWriteToolCall config handler fs raw).trace
        = [CoreManager.StageEvent.paramValidation true,
           CoreManager.StageEvent.confirmationRequested,
           CoreManager.StageEvent.confirmationResolved Confirmation.ConfirmationOutcome.denied]
    ∧ CoreManager.StageEvent.fsWrite
        ∉ (CoreManager.executeWriteToolCall config handler fs raw).trace
    ∧ (CoreManager.executeWriteToolCall config handler fs raw).fs = fs
    ∧ (CoreManager.executeWriteToolCall config handler fs raw).outcome
        = CoreManager.ToolOutcome.cancelledByUser ((("Tool execution cancelled by user: ").data)
            ++ ((handler (CoreManager.overwriteRequest params)).message.getD
                 ((("No reason provided").data))))
    ∧ (∀ m, (CoreManager.executeWriteToolCall config handler fs raw).outcome
        ≠ CoreManager.ToolOutcome.failed m) := by
  have hc : WriteFileTool.shouldConfirmExecute fs params
      = some { message := WriteFileTool.fileWord ++ params.path ++ WriteFileTool.overwriteTail,
               description := WriteFileTool.getDescription params,
               destructive := some true } := by
    unfold WriteFileTool.shouldConfirmExecute
    rw [hexists]
    rfl
  have hdeny2 : (Confirmation.managerRequestConfirmation handler CoreManager.writeToolName
      (WriteFileTool.getDescription params)
      { message := WriteFileTool.fileWord ++ params.path ++ WriteFileTool.overwriteTail,
        description := WriteFileTool.getDescription params,
        destructive := some true }
      (WriteFileTool.getToolLocations params)).outcome
      = Confirmation.ConfirmationOutcome.denied := hdeny
  have hne : (Confirmation.managerRequestConfirmation handler CoreManager.writeToolName
      (WriteFileTool.getDescription params)
      { message := WriteFileTool.fileWord ++ params.path ++ WriteFileTool.overwriteTail,
        description := WriteFileTool.getDescription params,
        destructive := some true }
      (WriteFileTool.getToolLocations params)).outcome
      ≠ Confirmation.ConfirmationOutcome.approved := by
    rw [hdeny2]; simp
  have hmain := execCall_confirm_refused config handler fs raw params _ hparse hc hne
  refine ⟨?_, ?_, ?_, ?_, ?_, ?_⟩
  · intro h2
    by_cases ho2 : (Confirmation.managerRequestConfirmation h2 CoreManager.writeToolName
        (WriteFileTool.getDescription params)
        { message := WriteFileTool.fileWord ++ params.path ++ WriteFileTool.overwriteTail,
          description := WriteFileTool.getDescription params,
          destructive := some true }
        (WriteFileTool.getToolLocations params)).outcome
          = Confirmation.ConfirmationOutcome.approved
    · rw [execCall_confirm_approved config h2 fs raw params _ hparse hc ho2]
      obtain ⟨tail, htail⟩ := runWriteExecute_trace_extends config fs params
        [CoreManager.StageEvent.paramValidation true,
         CoreManager.StageEvent.confirmationRequested,
         CoreManager.StageEvent.confirmationResolved Confirmation.ConfirmationOutcome.approved]
      exact ⟨_, htail⟩
    · rw [execCall_confirm_refused config h2 fs raw params _ hparse hc ho2]
      exact ⟨_, rfl⟩
  · rw [hmain]
    show _ = _
    rw [show (Confirmation.managerRequestConfirmation handler CoreManager.writeToolName
      (WriteFileTool.getDescription params)
      { message := WriteFileTool.fileWord ++ params.path ++ WriteFileTool.overwriteTail,
        description := WriteFileTool.getDescription params,
        destructive := some true }
      (WriteFileTool.getToolLocations params)).outcome
      = Confirmation.ConfirmationOutcome.denied from hdeny2]
  · rw [hmain]
    simp
  · rw [hmain]
  · rw [hmain]
    rfl
  · rw [hmain]
    intro m h
    simp at h

/-- C3 witness: the cancellation property at a concrete denied overwrite. -/
theorem write_denied_cancellation_witness :
    (CoreManager.executeWriteToolCall { rootDirectory := ("/project").data }
        (fun _ => { outcome := Confirmation.ConfirmationOutcome.denied,
                    message := some (("keep it").data) })
        ⟨[((("/project/config.json").data), ("old").data)]⟩
        [((("path").data), WriteFileTool.RawValue.str (("/project/config.json").data)),
         ((("content").data), WriteFileTool.RawValue.str (("x").data))]).fs
      = ⟨[((("/project/config.json").data), ("old").data)]⟩ :=
  (write_denied_cancellation { rootDirectory := ("/project").data }
      ⟨[((("/project/config.json").data), ("old").data)]⟩
      [((("path").data), WriteFileTool.RawValue.str (("/project/config.json").data)),
       ((("content").data), WriteFileTool.RawValue.str (("x").data))]
      { path := ("/project/config.json").data, content := ("x").data }
      (fun _ => { outcome := Confirmation.ConfirmationOutcome.denied,
                  message := some (("keep it").data) })
      rfl rfl rfl).2.2.2.1

/-- C10: the default confirmation handler returns `Approved` for every
request — including ones marked destructive — so with it installed the
`Denied` and `Cancelled` outcomes are unreachable: the executor never
records a cancellation for any invocation. -/
theorem default_handler_always_approves :
    (∀ request, (Confirmation.defaultRequestConfirmation request).outcome
        = Confirmation.ConfirmationOutcome.approved)
    ∧ (∀ (config : SafetyManager.SafetyConfig) (fs : FS) (raw : WriteFileTool.RawParams) (c : Str),
        (CoreManager.executeWriteToolCall config Confirmation.defaultRequestConfirmation
            fs raw).outcome
          ≠ CoreManager.ToolOutcome.cancelledByUser c) := by
  have happ : ∀ request, (Confirmation.defaultRequestConfirmation request).outcome
      = Confirmation.ConfirmationOutcome.approved := by
    intro request
    simp [Confirmation.defaultRequestConfirmation]
  refine ⟨happ, ?_⟩
  intro config fs raw c
  cases hp : WriteFileTool.parseWriteParams raw with
  | none => simp [CoreManager.executeWriteToolCall, hp]
  | some params =>
    cases hc : WriteFileTool.shouldConfirmExecute fs params with
    | none =>
      simp only [CoreManager.executeWriteToolCall, hp, hc]
      exact runWriteExecute_not_cancelled config fs params _ c
    | some details =>
      simp only [CoreManager.executeWriteToolCall, hp, hc]
      rw [if_neg (by simp [Confirmation.managerRequestConfirmation, happ])]
      exact runWriteExecute_not_cancelled config fs params _ c

/-- C10 witness: a destructive overwrite under the default handler is not
cancelled. -/
theorem default_handler_always_approves_witness :
    (CoreManager.executeWriteToolCall { rootDirectory := ("/project").data }
        Confirmation.defaultRequestConfirmation
        ⟨[((("/project/config.json").data), ("old").data)]⟩
        [((("path").data), WriteFileTool.RawValue.str (("/project/config.json").data)),
         ((("content").data), WriteFileTool.RawValue.str (("x").data))]).outcome
      ≠ CoreManager.ToolOutcome.cancelledByUser [] :=
  default_handler_always_approves.2 { rootDirectory := ("/project").data }
    ⟨[((("/project/config.json").data), ("old").data)]⟩
    [((("path").data), WriteFileTool.RawValue.str (("/project/config.json").data)),
     ((("content").data), WriteFileTool.RawValue.str (("x").data))] []

/-- C7 amended: registering a duplicate name fails by throwing an error — a
plain `Error`, not the codebase's `ConfigurationError` class — and the
registry is left unchanged (no insertion happens); a first registration of a
fresh name succeeds and appends it; and `createInvocation` for an
unregistered name fails with a `NOT_FOUND` `ToolError` listing the names of
all currently registered tools. -/
theorem registry_integrity (r : ToolRegistry.Registry) (name : Str) :
    (name ∈ r.tools →
      ToolRegistry.register r name
        = .error (.genericError ((("Tool with name '").data ++ name
            ++ ("' is already registered").data))))
    ∧ (name ∉ r.tools →
      ToolRegistry.register r name = .ok { tools := r.tools ++ [name] })
    ∧ (name ∉ r.tools →
      ToolRegistry.createInvocation r name
        = .error (.toolError ((("Unknown tool: ").data ++ name))
            ToolRegistry.ToolErrorType.not_found_error r.tools)) := by
  refine ⟨?_, ?_, ?_⟩ <;> intro h <;>
    simp [ToolRegistry.register, ToolRegistry.createInvocation, h]

/-- C7 witness: the registry properties at concrete names. -/
theorem registry_integrity_witness :
    ToolRegistry.register ToolRegistry.builtInRegistry (("delete_file").data)
      = .ok { tools := ToolRegistry.builtInRegistry.tools ++ [("delete_file").data] } :=
  (registry_integrity ToolRegistry.builtInRegistry (("delete_file").data)).2.1 (by decide)

/-- Helper: a token-bucket step always leaves the stored count at or below
`burstLimit`, from any starting state. -/
theorem checkTokenBucket_ceiling (config : RateLimiter.RateLimitConfig) (now : Nat)
    (st : Option RateLimiter.RateLimitEntry) :
    RateLimiter.entryWithinCeiling config.burstLimit
      (RateLimiter.checkTokenBucket config now st).2 = true := by
  unfold RateLimiter.checkTokenBucket
  cases st <;>
    simp only [Option.getD, Option.isSome] <;>
    split_ifs <;>
    simp [RateLimiter.entryWithinCeiling]

/-- Helper: a sliding-window step preserves the count ceiling
`requestsPerMinute`. -/
theorem checkSlidingWindow_ceiling (config : RateLimiter.RateLimitConfig) (now : Nat)
    (st : Option RateLimiter.RateLimitEntry)
    (h : RateLimiter.entryWithinCeiling config.requestsPerMinute st = true) :
    RateLimiter.entryWithinCeiling config.requestsPerMinute
      (RateLimiter.checkSlidingWindow config now st).2 = true := by
  unfold RateLimiter.checkSlidingWindow
  cases st with
  | none =>
    simp only [Option.getD, Option.isSome] <;> split_ifs <;>
      simp [RateLimiter.entryWithinCeiling] <;> omega
  | some e =>
    simp only [RateLimiter.entryWithinCeiling, decide_eq_true_eq] at h
    simp only [Option.getD, Option.isSome]
    split_ifs <;> simp [RateLimiter.entryWithinCeiling] <;> omega

/-- Helper: a fixed-window step preserves the count ceiling
`requestsPerMinute`. -/
theorem checkFixedWindow_ceiling (config : RateLimiter.RateLimitConfig) (now : Nat)
    (st : Option RateLimiter.RateLimitEntry)
    (h : RateLimiter.entryWithinCeiling config.requestsPerMinute st = true) :
    RateLimiter.entryWithinCeiling config.requestsPerMinute
      (RateLimiter.checkFixedWindow config now st).2 = true := by
  unfold RateLimiter.checkFixedWindow
  cases st with
  | none =>
    simp only [Option.getD, Option.isSome] <;> split_ifs <;>
      simp [RateLimiter.entryWithinCeiling] <;> omega
  | some e =>
    simp only [RateLimiter.entryWithinCeiling, decide_eq_true_eq] at h
    simp only [Option.getD, Option.isSome]
    split_ifs <;> simp [RateLimiter.entryWithinCeiling] <;> omega

/-- Helper: one `checkLimit` step preserves the algorithm's count ceiling. -/
theorem checkLimit_ceiling (config : RateLimiter.RateLimitConfig)
    (algorithm : RateLimiter.RateLimitAlgorithm) (now : Nat)
    (st : Option RateLimiter.RateLimitEntry)
    (h : RateLimiter.entryWithinCeiling (RateLimiter.ceilingOf config algorithm) st = true) :
    RateLimiter.entryWithinCeiling (RateLimiter.ceilingOf config algorithm)
      (RateLimiter.checkLimit config algorithm now st).2 = true := by
  unfold RateLimiter.checkLimit
  by_cases hen : config.enabled
  · simp only [hen, Bool.not_true]
    cases algorithm with
    | token_bucket =>
      simpa [RateLimiter.ceilingOf] using checkTokenBucket_ceiling config now st
    | sliding_window =>
      simpa [RateLimiter.ceilingOf] using
        checkSlidingWindow_ceiling config now st (by simpa [RateLimiter.ceilingOf] using h)
    | fixed_window =>
      simpa [RateLimiter.ceilingOf] using
        checkFixedWindow_ceiling config now st (by simpa [RateLimiter.ceilingOf] using h)
  · simp only [hen, Bool.not_false]
    simpa using h

/-- C8: under each of the three algorithms, for every key and every sequence
of checks from a fresh state, the stored entry's count never exceeds the
algorithm's configured ceiling — `requestsPerMinute` for the sliding and
fixed windows, `burstLimit` for the token bucket. -/
theorem rate_limit_count_ceiling (config : RateLimiter.RateLimitConfig)
    (algorithm : RateLimiter.RateLimitAlgorithm) (times : List Nat) :
    (RateLimiter.runStates config algorithm times none).all
      (RateLimiter.entryWithinCeiling (RateLimiter.ceilingOf config algorithm)) = true := by
  have gen : ∀ (ts : List Nat) (st : Option RateLimiter.RateLimitEntry),
      RateLimiter.entryWithinCeiling (RateLimiter.ceilingOf config algorithm) st = true →
      (RateLimiter.runStates config algorithm ts st).all
        (RateLimiter.entryWithinCeiling (RateLimiter.ceilingOf config algorithm)) = true := by
    intro ts
    induction ts with
    | nil => intro st _; rfl
    | cons t ts ih =>
      intro st h
      have h1 := checkLimit_ceiling config algorithm t st h
      simp only [RateLimiter.runStates, List.all_cons, Bool.and_eq_true]
      exact ⟨h1, ih _ h1⟩
  exact gen times none rfl

/-- C9 amended: every token-bucket denial reports
`retryAfter = ceil(windowSizeMs / requestsPerMinute / 1000)` seconds (the
division by 1000 converts the per-token refill interval to seconds). -/
theorem token_bucket_retry_after_formula (config : RateLimiter.RateLimitConfig) (now : Nat)
    (st : Option RateLimiter.RateLimitEntry)
    (hden : (RateLimiter.checkTokenBucket config now st).1.allowed = false) :
    (RateLimiter.checkTokenBucket config now st).1.retryAfter
      = some (RateLimiter.natCeilDiv config.windowSizeMs (config.requestsPerMinute * 1000)) := by
  simp only [RateLimiter.checkTokenBucket] at hden ⊢
  split
  next h =>
    rw [if_pos h] at hden
    simp at hden
  next h =>
    rfl

/-- C9 witness: the amended formula at a concrete empty bucket. -/
theorem token_bucket_retry_after_formula_witness :
    (RateLimiter.checkTokenBucket {} 0 (some ⟨0, 0, 0⟩)).1.retryAfter
      = some (RateLimiter.natCeilDiv (60000 : Nat) (60 * 1000)) :=
  token_bucket_retry_after_formula {} 0 (some ⟨0, 0, 0⟩) rfl

/-- Helper: a sliding-window check strictly inside the window of the stored
entry, with `k` requests already counted and `k < requestsPerMinute`, is
allowed and advances the count. -/
theorem sliding_step_allowed (config : RateLimiter.RateLimitConfig) (hen : config.enabled = true)
    (t1 t lr k : Nat) (hwin : t < t1 + config.windowSizeMs)
    (hcount : k < config.requestsPerMinute) :
    RateLimiter.checkLimit config .sliding_window t (some ⟨k, t1, lr⟩)
      = ({ allowed := true, remaining := config.requestsPerMinute - (k + 1),
           resetTime := t1 + config.windowSizeMs },
         some ⟨k + 1, t1, t⟩) := by
  unfold RateLimiter.checkLimit RateLimiter.checkSlidingWindow
  rw [hen]
  simp only [Bool.not_true, Bool.false_eq_true, if_false, Option.getD]
  rw [if_neg (show ¬ ((⟨k, t1, lr⟩ : RateLimiter.RateLimitEntry).windowStart
      < t - config.windowSizeMs) by simp only []; omega)]
  rw [if_pos (show (⟨k, t1, lr⟩ : RateLimiter.RateLimitEntry).count
      < config.requestsPerMinute from hcount)]

/-- Helper: starting from an in-window entry with `k` requests counted, a run
of checks all strictly inside the window is fully allowed and advances the
count by the number of checks. -/
theorem sliding_fill (config : RateLimiter.RateLimitConfig) (hen : config.enabled = true)
    (t1 : Nat) :
    ∀ (ts : List Nat) (k lr : Nat),
      (∀ t ∈ ts, t < t1 + config.windowSizeMs) →
      k + ts.length ≤ config.requestsPerMinute →
      ((RateLimiter.runChecks config .sliding_window ts (some ⟨k, t1, lr⟩)).1.map
          (fun r => r.allowed) = List.replicate ts.length true)
      ∧ ∃ lr2, (RateLimiter.runChecks config .sliding_window ts (some ⟨k, t1, lr⟩)).2
          = some ⟨k + ts.length, t1, lr2⟩ := by
  intro ts
  induction ts with
  | nil =>
    intro k lr _ _
    exact ⟨rfl, ⟨lr, rfl⟩⟩
  | cons t ts ih =>
    intro k lr hts hk
    have hwin : t < t1 + config.windowSizeMs := hts t (by simp)
    have hcount : k < config.requestsPerMinute := by
      simp only [List.length_cons] at hk; omega
    have hstep := sliding_step_allowed config hen t1 t lr k hwin hcount
    simp only [RateLimiter.runChecks, hstep]
    obtain ⟨hmap, lr2, hst⟩ := ih (k + 1) t (fun u hu => hts u (by simp [hu]))
      (by simp only [List.length_cons] at hk; omega)
    refine ⟨?_, ⟨lr2, ?_⟩⟩
    · simp [hmap, List.replicate_succ]
    · have harith : k + (t :: ts).length = k + 1 + ts.length := by
        simp only [List.length_cons]; omega
      rw [harith]
      exact hst

/-- C4: with the sliding-window algorithm and a fresh key whose window starts
at the first check, `requestsPerMinute` consecutive checks strictly inside
the window are all allowed, the next check (still inside the window) is
denied with `retryAfter ≥ 1` seconds, and any check strictly after
`windowSizeMs` has elapsed since the window start is allowed again. -/
theorem sliding_window_rate_ceiling (config : RateLimiter.RateLimitConfig)
    (t1 tlast : Nat) (ts : List Nat)
    (hen : config.enabled = true)
    (hN : 0 < config.requestsPerMinute)
    (hlen : 1 + ts.length = config.requestsPerMinute)
    (hts : ∀ t ∈ ts, t < t1 + config.windowSizeMs)
    (hlast : tlast < t1 + config.windowSizeMs) :
    ((RateLimiter.runChecks config .sliding_window (t1 :: ts) none).1.map (fun r => r.allowed)
        = List.replicate config.requestsPerMinute true)
    ∧ (RateLimiter.checkLimit config .sliding_window tlast
        (RateLimiter.runChecks config .sliding_window (t1 :: ts) none).2).1.allowed = false
    ∧ (∃ ra, (RateLimiter.checkLimit config .sliding_window tlast
          (RateLimiter.runChecks config .sliding_window (t1 :: ts) none).2).1.retryAfter
            = some ra
        ∧ 1 ≤ ra)
    ∧ (∀ t2, t1 + config.windowSizeMs < t2 →
        (RateLimiter.checkLimit config .sliding_window t2
          (RateLimiter.checkLimit config .sliding_window tlast
            (RateLimiter.runChecks config .sliding_window (t1 :: ts) none).2).2).1.allowed
          = true) := by
  have hfirst : RateLimiter.checkLimit config .sliding_window t1 none
      = ({ allowed := true, remaining := config.requestsPerMinute - 1,
           resetTime := t1 + config.windowSizeMs },
         some ⟨1, t1, t1⟩) := by
    unfold RateLimiter.checkLimit RateLimiter.checkSlidingWindow
    rw [hen]
    simp only [Bool.not_true, Bool.false_eq_true, if_false, Option.getD]
    rw [if_neg (show ¬ (t1 < t1 - config.windowSizeMs) by omega)]
    rw [if_pos (show (0 : Nat) < config.requestsPerMinute from hN)]
  obtain ⟨hmap, lr2, hst⟩ := sliding_fill config hen t1 ts 1 t1 hts (by omega)
  have hrun1 : (RateLimiter.runChecks config .sliding_window (t1 :: ts) none).1.map
      (fun r => r.allowed) = true :: List.replicate ts.length true := by
    simp only [RateLimiter.runChecks, hfirst, List.map_cons, hmap]
  have hrun2 : (RateLimiter.runChecks config .sliding_window (t1 :: ts) none).2
      = some ⟨config.requestsPerMinute, t1, lr2⟩ := by
    simp only [RateLimiter.runChecks, hfirst]
    rw [hst, hlen]
  have hdeny : RateLimiter.checkLimit config .sliding_window tlast
      (some ⟨config.requestsPerMinute, t1, lr2⟩)
      = ({ allowed := false, remaining := 0, resetTime := t1 + config.windowSizeMs,
           retryAfter := some (RateLimiter.natCeilDiv
             (t1 + config.windowSizeMs - tlast) 1000) },
         some ⟨config.requestsPerMinute, t1, lr2⟩) := by
    unfold RateLimiter.checkLimit RateLimiter.checkSlidingWindow
    rw [hen]
    simp only [Bool.not_true, Bool.false_eq_true, if_false, Option.getD]
    rw [if_neg (show ¬ (t1 < tlast - config.windowSizeMs) by omega)]
    rw [if_neg (show ¬ (config.requestsPerMinute < config.requestsPerMinute) by omega)]
    rfl
  refine ⟨?_, ?_, ?_, ?_⟩
  · rw [hrun1, ← hlen]
    rw [show 1 + ts.length = ts.length + 1 by omega]
    rfl
  · rw [hrun2, hdeny]
  · rw [hrun2, hdeny]
    refine ⟨_, rfl, ?_⟩
    unfold RateLimiter.natCeilDiv
    rw [Nat.le_div_iff_mul_le (by norm_num)]
    omega
  · intro t2 ht2
    rw [hrun2, hdeny]
    unfold RateLimiter.checkLimit RateLimiter.checkSlidingWindow
    rw [hen]
    simp only [Bool.not_true, Bool.false_eq_true, if_false, Option.getD]
    rw [if_pos (show t1 < t2 - config.windowSizeMs by omega)]
    rw [if_pos (show (0 : Nat) < config.requestsPerMinute from hN)]

/-- C4 witness: `requestsPerMinute = 2`, `windowSizeMs = 1000`, checks at
0 ms and 100 ms allowed, at 200 ms denied, and allowed again at 1001 ms. -/
theorem sliding_window_rate_ceiling_witness :
    ((RateLimiter.runChecks { requestsPerMinute := 2, windowSizeMs := 1000 }
        .sliding_window [0, 100] none).1.map (fun r => r.allowed)
      = List.replicate 2 true)
    ∧ (RateLimiter.checkLimit { requestsPerMinute := 2, windowSizeMs := 1000 }
        .sliding_window 200
        (RateLimiter.runChecks { requestsPerMinute := 2, windowSizeMs := 1000 }
          .sliding_window [0, 100] none).2).1.allowed = false := by
  have h := sliding_window_rate_ceiling { requestsPerMinute := 2, windowSizeMs := 1000 }
    0 200 [100] rfl (by decide) rfl (by decide) (by decide)
  exact ⟨h.1, h.2.1⟩

/-- Helper: `retryGo` on an operation that fails with the same retryable,
non-rate-limit error on every attempt performs all remaining attempts with
the capped exponential delays. -/
theorem retryGo_all_fail (config : ErrorUtils.RetryConfig) (e : Errors.LiftedError)
    (he : Errors.isRetryable e = true) (hra : e.retryAfterSec = none)
    (op : Nat → Except Errors.LiftedError Unit) (hop : ∀ k, op k = .error e) :
    ∀ (fuel attempt : Nat), 1 ≤ fuel → 1 ≤ attempt →
      ErrorUtils.retryGo config op attempt fuel
        = { result := .error e, attempts := fuel,
            delays := (List.range (fuel - 1)).map
              (fun i => min (config.baseDelayMs * config.backoffMultiplier ^ (attempt - 1 + i))
                config.maxDelayMs) } := by
  intro fuel
  induction fuel with
  | zero => intro attempt h _; omega
  | succ f ih =>
    intro attempt _ hatt
    unfold ErrorUtils.retryGo
    simp only [hop attempt]
    by_cases hf : f = 0
    · subst hf
      simp
    · rw [if_neg hf]
      rw [if_neg (show ¬ (!Errors.isRetryable e) = true by rw [he]; simp)]
      rw [hra]
      rw [ih (attempt + 1) (by omega) (by omega)]
      have hrange : (List.range f).map
          (fun i => min (config.baseDelayMs * config.backoffMultiplier ^ (attempt - 1 + i))
            config.maxDelayMs)
          = min (config.baseDelayMs * config.backoffMultiplier ^ (attempt - 1))
              config.maxDelayMs
            :: (List.range (f - 1)).map
              (fun i => min (config.baseDelayMs * config.backoffMultiplier ^ (attempt + 1 - 1 + i))
                config.maxDelayMs) := by
        obtain ⟨f2, rfl⟩ : ∃ f2, f = f2 + 1 := ⟨f - 1, by omega⟩
        rw [List.range_succ_eq_map]
        simp only [List.map_cons, List.map_map, Nat.add_zero, Nat.add_sub_cancel]
        refine congrArg₂ _ rfl ?_
        apply List.map_congr_left
        intro i _
        simp only [Function.comp]
        have h9 : attempt - 1 + Nat.succ i = attempt + i := by omega
        rw [h9]
      simp only [Nat.add_sub_cancel] at hrange ⊢
      rw [hrange]

/-- Helper: reading the capped-backoff delay list at an in-range index. -/
theorem backoff_getD (b m maxD : Nat) (n i : Nat) (h : i < n) :
    ((List.range n).map (fun j => min (b * m ^ j) maxD)).getD i 0
      = min (b * m ^ i) maxD := by
  rw [List.getD_eq_getElem?_getD, List.getElem?_map, List.getElem?_range h]
  rfl

/-- C6: an operation failing with a Network-kind error on every attempt is
tried exactly `maxAttempts` times (the first attempt plus the retries), with
inter-attempt delays `min(baseDelayMs * backoffMultiplier^(attempt-1),
maxDelayMs)` that strictly increase until they hit the `maxDelayMs` cap, and
then its error is surfaced; an operation failing with a Validation-kind
error is never retried — its error is surfaced after the first attempt, with
no delay. -/
theorem retry_network_and_validation (config : ErrorUtils.RetryConfig)
    (netE valE : Errors.LiftedError)
    (opN opV : Nat → Except Errors.LiftedError Unit)
    (hM : 1 ≤ config.maxAttempts) (hb : 1 ≤ config.baseDelayMs)
    (hm : 2 ≤ config.backoffMultiplier)
    (hnet : netE.category = Errors.ErrorCategory.network) (hra : netE.retryAfterSec = none)
    (hval : valE.category = Errors.ErrorCategory.validation)
    (hopN : ∀ k, opN k = .error netE) (hopV : opV 1 = .error valE) :
    ((ErrorUtils.retry config opN).result = .error netE
      ∧ (ErrorUtils.retry config opN).attempts = config.maxAttempts
      ∧ (ErrorUtils.retry config opN).delays
          = (List.range (config.maxAttempts - 1)).map
              (fun i => min (config.baseDelayMs * config.backoffMultiplier ^ i)
                config.maxDelayMs)
      ∧ (∀ i, i + 1 < (ErrorUtils.retry config opN).delays.length →
          ((ErrorUtils.retry config opN).delays.getD i 0
              < (ErrorUtils.retry config opN).delays.getD (i + 1) 0
            ∨ (ErrorUtils.retry config opN).delays.getD (i + 1) 0 = config.maxDelayMs)))
    ∧ ((ErrorUtils.retry config opV).result = .error valE
      ∧ (ErrorUtils.retry config opV).attempts = 1
      ∧ (ErrorUtils.retry config opV).delays = []) := by
  have hretN : Errors.isRetryable netE = true := by
    simp [Errors.isRetryable, hnet]
  have hrun : ErrorUtils.retry config opN
      = { result := .error netE, attempts := config.maxAttempts,
          delays := (List.range (config.maxAttempts - 1)).map
            (fun i => min (config.baseDelayMs * config.backoffMultiplier ^ i)
              config.maxDelayMs) } := by
    unfold ErrorUtils.retry
    rw [retryGo_all_fail config netE hretN hra opN hopN config.maxAttempts 1 hM (by omega)]
    simp
  have hlen : (ErrorUtils.retry config opN).delays.length = config.maxAttempts - 1 := by
    rw [hrun]
    simp
  refine ⟨⟨by rw [hrun], by rw [hrun], by rw [hrun], ?_⟩, ?_⟩
  · intro i hi
    rw [hlen] at hi
    have hdi : (ErrorUtils.retry config opN).delays.getD i 0
        = min (config.baseDelayMs * config.backoffMultiplier ^ i) config.maxDelayMs := by
      rw [hrun]
      exact backoff_getD _ _ _ _ _ (by omega)
    have hdi1 : (ErrorUtils.retry config opN).delays.getD (i + 1) 0
        = min (config.baseDelayMs * config.backoffMultiplier ^ (i + 1)) config.maxDelayMs := by
      rw [hrun]
      exact backoff_getD _ _ _ _ _ (by omega)
    rw [hdi, hdi1]
    have hpow : config.baseDelayMs * config.backoffMultiplier ^ i
        < config.baseDelayMs * config.backoffMultiplier ^ (i + 1) := by
      have h1 : 0 < config.backoffMultiplier ^ i := pow_pos (by omega) i
      have he2 : config.baseDelayMs * config.backoffMultiplier ^ (i + 1)
          = config.baseDelayMs * config.backoffMultiplier ^ i * config.backoffMultiplier := by
        rw [pow_succ, Nat.mul_assoc]
      have hstep2 : config.baseDelayMs * config.backoffMultiplier ^ i * 2
          ≤ config.baseDelayMs * config.backoffMultiplier ^ i * config.backoffMultiplier :=
        Nat.mul_le_mul_left _ hm
      have hx : 1 ≤ config.baseDelayMs * config.backoffMultiplier ^ i :=
        Nat.one_le_iff_ne_zero.mpr (Nat.mul_ne_zero (by omega) (by omega))
      rw [he2]
      linarith
    by_cases hc : config.baseDelayMs * config.backoffMultiplier ^ (i + 1) ≤ config.maxDelayMs
    · left
      rw [Nat.min_eq_left hc]
      exact lt_of_le_of_lt (Nat.min_le_left _ _) hpow
    · right
      exact Nat.min_eq_right (by omega)
  · have hretV : Errors.isRetryable valE = false := by
      simp [Errors.isRetryable, hval]
    obtain ⟨M2, hM2⟩ : ∃ M2, config.maxAttempts = M2 + 1 := ⟨config.maxAttempts - 1, by omega⟩
    unfold ErrorUtils.retry
    rw [hM2]
    unfold ErrorUtils.retryGo
    simp only [hopV]
    by_cases hM0 : M2 = 0
    · subst hM0
      simp
    · rw [if_neg hM0]
      rw [if_pos (show (!Errors.isRetryable valE) = true by rw [hretV]; simp)]
      exact ⟨rfl, rfl, rfl⟩

/-- C6 witness: with the default retry configuration, a permanent
network-kind failure is tried three times with delays 1000 ms and 2000 ms. -/
theorem retry_network_and_validation_witness :
    (ErrorUtils.retry {}
        (fun _ => (.error ⟨Errors.ErrorCategory.network, none⟩
          : Except Errors.LiftedError Unit))).attempts = 3
    ∧ (ErrorUtils.retry {}
        (fun _ => (.error ⟨Errors.ErrorCategory.validation, none⟩
          : Except Errors.LiftedError Unit))).attempts = 1 := by
  have h := retry_network_and_validation {} ⟨Errors.ErrorCategory.network, none⟩
    ⟨Errors.ErrorCategory.validation, none⟩
    (fun _ => (.error ⟨Errors.ErrorCategory.network, none⟩ : Except Errors.LiftedError Unit))
    (fun _ => (.error ⟨Errors.ErrorCategory.validation, none⟩ : Except Errors.LiftedError Unit))
    (by decide) (by decide) (by decide) rfl rfl rfl (fun _ => rfl) rfl
  exact ⟨h.1.2.1, h.2.2.1⟩

end OpenCLI
